import Mathlib

/-!
# The raw keyset-handle gateway of `go/tink/init.go`

`init.go` holds two functions.

* `keysetHandle(ks *tinkpb.Keyset) *KeysetHandle` returns `&KeysetHandle{ks}`:
  it allocates one new `KeysetHandle` object whose single field is the pointer
  it was given, and returns the address of that object.
* `init()` assigns `keysetHandle` to the package-level variable
  `internal.KeysetHandle`.

Go pointers are modelled by addresses into a heap (`none` is the nil pointer),
so that two distinct pointers to equal keysets, and two distinct handle
objects, can be told apart.  Package-level variables and the heap together form
the program state.
-/

/-- A Go pointer `*α`: `none` is nil, `some a` is the address `a` of a cell of the heap. -/
abbrev Ptr (_α : Type) : Type := Option Nat

namespace tinkpb

/-- Modelled from the spec: the status of a key entry, "enabled/disabled/destroyed"; the
declaration of the protocol-buffer type is not part of `init.go`. -/
inductive KeyStatusType where
  | ENABLED
  | DISABLED
  | DESTROYED
  deriving DecidableEq, Repr

/-- Modelled from the spec: one key entry of a key set, "a unique numeric identifier, a status,
an output-prefix discriminator, and serialized key material (opaque at this layer)"; the
declaration of the protocol-buffer type is not part of `init.go`.  The key material is a list
of bytes. -/
structure Keyset_Key where
  KeyId : Nat
  Status : KeyStatusType
  OutputPrefixType : Nat
  KeyData : List Nat
  deriving DecidableEq, Repr

/-- Modelled from the spec: a key set, "an ordered collection of key entries plus a designated
primary key identifier"; the declaration of the protocol-buffer type is not part of `init.go`.
Nothing here forces the primary identifier to name an entry of the list. -/
structure Keyset where
  PrimaryKeyId : Nat
  Key : List Keyset_Key
  deriving DecidableEq, Repr

end tinkpb

namespace tink

/-- Modelled from the spec: the struct `KeysetHandle`, "an opaque wrapper that owns a KeySet";
its declaration is not part of `init.go`.  The composite literal `KeysetHandle{ks}` of
`keysetHandle` has no field names, so the struct has exactly one field, of type
`*tinkpb.Keyset`. -/
structure KeysetHandle where
  ks : Ptr tinkpb.Keyset
  deriving DecidableEq, Repr

/-- The heap: the allocated `tinkpb.Keyset` objects and the allocated `KeysetHandle` objects.
The address of an object is its position in its list. -/
structure Heap where
  keysets : List tinkpb.Keyset
  handles : List KeysetHandle
  deriving DecidableEq, Repr

/-- The keyset a pointer points to; `none` for the nil pointer (and for an address that holds
no object). -/
def Heap.keyset (m : Heap) (p : Ptr tinkpb.Keyset) : Option tinkpb.Keyset :=
  p.bind fun a => m.keysets[a]?

/-- The handle object a pointer points to; `none` for the nil pointer. -/
def Heap.handle (m : Heap) (p : Ptr KeysetHandle) : Option KeysetHandle :=
  p.bind fun a => m.handles[a]?

/-- The Go function type `func(*tinkpb.Keyset) *KeysetHandle`: a function value takes the
argument and the heap, and gives the result and the heap after the call. -/
abbrev RawConstructor : Type := Ptr tinkpb.Keyset → Heap → Ptr KeysetHandle × Heap

/-- The source function
`func keysetHandle(ks *tinkpb.Keyset) *KeysetHandle { return &KeysetHandle{ks} }`:
a new `KeysetHandle` object holding `ks` is allocated at the next free address, and that
address is returned. -/
def keysetHandle (ks : Ptr tinkpb.Keyset) (m : Heap) : Ptr KeysetHandle × Heap :=
  (some m.handles.length, { m with handles := m.handles ++ [{ ks := ks }] })

end tink

namespace internal

/-- Modelled from the spec: the package-level variable `internal.KeysetHandle`, "one mutable
slot typed as function from raw KeySet to Handle", nil until it is assigned; the declaration of
the variable is not part of `init.go`. -/
structure Vars where
  KeysetHandle : Option tink.RawConstructor

end internal

namespace tink

/-- The program state: the package-level variables of package `internal` and the heap. -/
structure World where
  vars : internal.Vars
  heap : Heap

/-- The source function `func init() { internal.KeysetHandle = keysetHandle }`. -/
def init (w : World) : World :=
  { w with vars := { w.vars with KeysetHandle := some keysetHandle } }

/-- The way a Go program stops when it calls a nil function value. -/
inductive Fatal where
  | nilFunctionCall
  deriving DecidableEq, Repr

/-- Modelled from the spec: the privileged operation `fromRawKeyset(keyset) -> Handle` of
package `insecure` and package `testkeysethandle` (not part of `init.go`), which "internally
reads the Bridge slot and invokes the stored function"; when the slot is still nil "the call
must fail loudly (fatal error / nil-dereference-equivalent)". -/
def fromRawKeyset (ks : Ptr tinkpb.Keyset) (w : World) : Except Fatal (Ptr KeysetHandle × World) :=
  match w.vars.KeysetHandle with
  | none => .error .nilFunctionCall
  | some f => .ok ((f ks w.heap).1, { w with heap := (f ks w.heap).2 })

/-- Modelled from the spec: the "primary-key-id accessor" of a handle (not part of `init.go`):
the primary key identifier of the keyset the handle wraps; `none` when the handle pointer or
the wrapped keyset pointer is nil. -/
def primaryKeyId (m : Heap) (h : Ptr KeysetHandle) : Option Nat :=
  ((m.handle h).bind fun o => m.keyset o.ks).map fun k => k.PrimaryKeyId

/-- Modelled from the spec: the "key entry list" of a handle (not part of `init.go`): the
key entries of the keyset the handle wraps. -/
def keyEntries (m : Heap) (h : Ptr KeysetHandle) : Option (List tinkpb.Keyset_Key) :=
  ((m.handle h).bind fun o => m.keyset o.ks).map fun k => k.Key

/-- The steps of this fragment: a run of `init()`, and an invocation of the function stored
in `internal.KeysetHandle` on a keyset pointer. -/
inductive Step where
  | init
  | invoke (ks : Ptr tinkpb.Keyset)
  deriving DecidableEq, Repr

/-- One step from a state: the state after it, or the fatal stop. -/
def step (w : World) : Step → Except Fatal World
  | .init => .ok (init w)
  | .invoke ks => (fromRawKeyset ks w).map fun r => r.2

/-- A sequence of steps from a state, stopping at the first fatal stop. -/
def run (w : World) : List Step → Except Fatal World
  | [] => .ok w
  | s :: rest =>
    match step w s with
    | .error e => .error e
    | .ok w1 => run w1 rest

/-- The state before anything has run: the slot is nil and the heap is the given one. -/
def unset (m : Heap) : World :=
  { vars := { KeysetHandle := none }, heap := m }

/-! ## Concrete data -/

/-- A key entry with identifier 1, enabled. -/
def exampleKey : tinkpb.Keyset_Key :=
  { KeyId := 1, Status := .ENABLED, OutputPrefixType := 1, KeyData := [10, 16, 255] }

/-- A keyset with one enabled key entry (identifier 1) marked primary. -/
def exampleKeyset : tinkpb.Keyset :=
  { PrimaryKeyId := 1, Key := [exampleKey] }

/-- A heap holding two structurally identical keysets at the addresses 0 and 1, and no
handle yet. -/
def exampleHeap : Heap :=
  { keysets := [exampleKeyset, exampleKeyset], handles := [] }

/-- Four malformed keysets: no key entries, a primary identifier matching no entry, a disabled
primary, a destroyed primary. -/
def malformedKeysets : List tinkpb.Keyset :=
  [ { PrimaryKeyId := 0, Key := [] },
    { PrimaryKeyId := 7, Key := [exampleKey] },
    { PrimaryKeyId := 1, Key := [{ exampleKey with Status := .DISABLED }] },
    { PrimaryKeyId := 1, Key := [{ exampleKey with Status := .DESTROYED }] } ]

/-- A heap holding the four malformed keysets at the addresses 0 to 3, and no handle yet. -/
def malformedHeap : Heap :=
  { keysets := malformedKeysets, handles := [] }

/-! ## Lemmas on `keysetHandle` -/

theorem keysetHandle_keyset (ks p : Ptr tinkpb.Keyset) (m : Heap) :
    (keysetHandle ks m).2.keyset p = m.keyset p := rfl

theorem keysetHandle_handle_new (ks : Ptr tinkpb.Keyset) (m : Heap) :
    (keysetHandle ks m).2.handle (keysetHandle ks m).1 = some { ks := ks } := by
  simp [keysetHandle, Heap.handle]

theorem keysetHandle_handle_old (ks : Ptr tinkpb.Keyset) (m : Heap) (p : Ptr KeysetHandle)
    (o : KeysetHandle) (h : m.handle p = some o) :
    (keysetHandle ks m).2.handle p = some o := by
  cases p with
  | none => simp [Heap.handle] at h
  | some a =>
    change m.handles[a]? = some o at h
    change (m.handles ++ [{ ks := ks }])[a]? = some o
    have hlt : a < m.handles.length := by
      by_contra hge
      rw [List.getElem?_eq_none (Nat.le_of_not_lt hge)] at h
      cases h
    rw [List.getElem?_append_left hlt]
    exact h

theorem primaryKeyId_keysetHandle (ks : Ptr tinkpb.Keyset) (m : Heap) :
    primaryKeyId (keysetHandle ks m).2 (keysetHandle ks m).1 =
      (m.keyset ks).map fun k => k.PrimaryKeyId := by
  simp [primaryKeyId, keysetHandle_handle_new, keysetHandle_keyset]

theorem keyEntries_keysetHandle (ks : Ptr tinkpb.Keyset) (m : Heap) :
    keyEntries (keysetHandle ks m).2 (keysetHandle ks m).1 =
      (m.keyset ks).map fun k => k.Key := by
  simp [keyEntries, keysetHandle_handle_new, keysetHandle_keyset]

/-! ## Lemmas on the steps -/

theorem fromRawKeyset_of_set (ks : Ptr tinkpb.Keyset) (w : World)
    (h : w.vars.KeysetHandle = some keysetHandle) :
    fromRawKeyset ks w =
      .ok ((keysetHandle ks w.heap).1, { w with heap := (keysetHandle ks w.heap).2 }) := by
  simp [fromRawKeyset, h]

theorem step_of_set (w : World) (s : Step) (h : w.vars.KeysetHandle = some keysetHandle) :
    ∃ w1, step w s = .ok w1 ∧ w1.vars.KeysetHandle = some keysetHandle := by
  cases s with
  | init => exact ⟨init w, rfl, rfl⟩
  | invoke ks =>
    refine ⟨{ w with heap := (keysetHandle ks w.heap).2 }, ?_, h⟩
    simp [step, fromRawKeyset_of_set ks w h, Except.map]

theorem run_of_set (steps : List Step) (w : World)
    (h : w.vars.KeysetHandle = some keysetHandle) :
    ∃ w1, run w steps = .ok w1 ∧ w1.vars.KeysetHandle = some keysetHandle := by
  induction steps generalizing w with
  | nil => exact ⟨w, rfl, h⟩
  | cons s rest ih =>
    obtain ⟨w1, hs, h1⟩ := step_of_set w s h
    obtain ⟨w2, hr, h2⟩ := ih w1 h1
    exact ⟨w2, by simp [run, hs, hr], h2⟩

theorem step_slot (w w1 : World) (s : Step) (h : step w s = .ok w1)
    (hw : w.vars.KeysetHandle = none ∨ w.vars.KeysetHandle = some keysetHandle) :
    w1.vars.KeysetHandle = none ∨ w1.vars.KeysetHandle = some keysetHandle := by
  rcases hw with hn | hs
  · cases s with
    | init =>
      simp only [step, Except.ok.injEq] at h
      subst h
      exact Or.inr rfl
    | invoke ks => simp [step, fromRawKeyset, hn, Except.map] at h
  · obtain ⟨w2, h2, hset⟩ := step_of_set w s hs
    rw [h2] at h
    cases h
    exact Or.inr hset

theorem run_slot (steps : List Step) (w w1 : World) (h : run w steps = .ok w1)
    (hw : w.vars.KeysetHandle = none ∨ w.vars.KeysetHandle = some keysetHandle) :
    w1.vars.KeysetHandle = none ∨ w1.vars.KeysetHandle = some keysetHandle := by
  induction steps generalizing w with
  | nil =>
    simp only [run, Except.ok.injEq] at h
    subst h
    exact hw
  | cons s rest ih =>
    simp only [run] at h
    cases hs : step w s with
    | error e => simp [hs] at h
    | ok w2 =>
      rw [hs] at h
      exact ih w2 h (step_slot w w2 s hs hw)

theorem run_append (xs ys : List Step) (w w1 : World) (h : run w xs = .ok w1) :
    run w (xs ++ ys) = run w1 ys := by
  induction xs generalizing w with
  | nil =>
    simp only [run, Except.ok.injEq] at h
    subst h
    rfl
  | cons s rest ih =>
    simp only [run] at h
    cases hs : step w s with
    | error e => simp [hs] at h
    | ok w2 =>
      rw [hs] at h
      simp only [List.cons_append, run, hs]
      exact ih w2 h

/-! ## The claims -/

/-- C1: whatever the slot `internal.KeysetHandle` held before (nil or any function), after
`init()` it is non-nil and holds exactly `keysetHandle`; the value written does not depend on
the prior state, and the heap is left as it was. -/
theorem init_installs_keysetHandle (slot : Option RawConstructor) (m : Heap) :
    (init { vars := { KeysetHandle := slot }, heap := m }).vars.KeysetHandle = some keysetHandle ∧
    (init { vars := { KeysetHandle := slot }, heap := m }).vars.KeysetHandle.isSome = true ∧
    (init { vars := { KeysetHandle := slot }, heap := m }).vars.KeysetHandle =
      (init (unset m)).vars.KeysetHandle ∧
    (init { vars := { KeysetHandle := slot }, heap := m }).heap = m :=
  ⟨rfl, rfl, rfl, rfl⟩

/-- C2: after `init()`, the slot holds a function, and calling it on any keyset pointer `ks`
returns a handle whose primary key id is the primary key id of the keyset `ks` points to; for a
keyset with one enabled key entry with id 1 marked primary, that id is 1. -/
theorem init_then_call_primaryKeyId (w : World) (ks : Ptr tinkpb.Keyset) :
    ∃ f : RawConstructor, (init w).vars.KeysetHandle = some f ∧
      primaryKeyId (f ks (init w).heap).2 (f ks (init w).heap).1 =
        ((init w).heap.keyset ks).map (fun k => k.PrimaryKeyId) ∧
      ((init w).heap.keyset ks).map (fun k => k.PrimaryKeyId) =
        (w.heap.keyset ks).map (fun k => k.PrimaryKeyId) ∧
      ∀ (material : List Nat) (outputPrefix : Nat),
        w.heap.keyset ks = some
            { PrimaryKeyId := 1,
              Key := [{ KeyId := 1, Status := .ENABLED, OutputPrefixType := outputPrefix,
                        KeyData := material }] } →
          primaryKeyId (f ks (init w).heap).2 (f ks (init w).heap).1 = some 1 := by
  refine ⟨keysetHandle, rfl, primaryKeyId_keysetHandle ks w.heap, rfl, ?_⟩
  intro material outputPrefix hk
  have h := primaryKeyId_keysetHandle ks w.heap
  rw [hk] at h
  exact h

/-- The scenario of C2 on a concrete heap: the keyset at address 0 has one enabled key entry
with id 1 marked primary, and the handle obtained after `init()` has primary key id 1. -/
theorem init_then_call_primaryKeyId_witness :
    ∃ f : RawConstructor, (init (unset exampleHeap)).vars.KeysetHandle = some f ∧
      primaryKeyId (f (some 0) exampleHeap).2 (f (some 0) exampleHeap).1 = some 1 := by
  obtain ⟨f, hf, _, _, h1⟩ := init_then_call_primaryKeyId (unset exampleHeap) (some 0)
  exact ⟨f, hf, h1 [10, 16, 255] 1 rfl⟩

/-- C3: when two keyset pointers point to structurally identical keysets, the handles returned
by two successive calls of `keysetHandle` show the same primary key id and the same key entry
list, namely those of the keyset, although the two handles are distinct objects. -/
theorem keysetHandle_identical_keysets (m : Heap) (ks1 ks2 : Ptr tinkpb.Keyset)
    (h : m.keyset ks1 = m.keyset ks2) :
    primaryKeyId (keysetHandle ks2 (keysetHandle ks1 m).2).2 (keysetHandle ks1 m).1 =
      primaryKeyId (keysetHandle ks2 (keysetHandle ks1 m).2).2
        (keysetHandle ks2 (keysetHandle ks1 m).2).1 ∧
    keyEntries (keysetHandle ks2 (keysetHandle ks1 m).2).2 (keysetHandle ks1 m).1 =
      keyEntries (keysetHandle ks2 (keysetHandle ks1 m).2).2
        (keysetHandle ks2 (keysetHandle ks1 m).2).1 ∧
    primaryKeyId (keysetHandle ks2 (keysetHandle ks1 m).2).2 (keysetHandle ks1 m).1 =
      (m.keyset ks1).map (fun k => k.PrimaryKeyId) ∧
    keyEntries (keysetHandle ks2 (keysetHandle ks1 m).2).2 (keysetHandle ks1 m).1 =
      (m.keyset ks1).map (fun k => k.Key) ∧
    (keysetHandle ks1 m).1 ≠ (keysetHandle ks2 (keysetHandle ks1 m).2).1 := by
  have hold := keysetHandle_handle_old ks2 (keysetHandle ks1 m).2 (keysetHandle ks1 m).1
    { ks := ks1 } (keysetHandle_handle_new ks1 m)
  have hp1 : primaryKeyId (keysetHandle ks2 (keysetHandle ks1 m).2).2 (keysetHandle ks1 m).1 =
      (m.keyset ks1).map (fun k => k.PrimaryKeyId) := by
    simp only [primaryKeyId, hold]
    rfl
  have hk1 : keyEntries (keysetHandle ks2 (keysetHandle ks1 m).2).2 (keysetHandle ks1 m).1 =
      (m.keyset ks1).map (fun k => k.Key) := by
    simp only [keyEntries, hold]
    rfl
  have hp2 := primaryKeyId_keysetHandle ks2 (keysetHandle ks1 m).2
  have hk2 := keyEntries_keysetHandle ks2 (keysetHandle ks1 m).2
  rw [keysetHandle_keyset, ← h] at hp2 hk2
  refine ⟨hp1.trans hp2.symm, hk1.trans hk2.symm, hp1, hk1, ?_⟩
  simp [keysetHandle]

/-- The property of C3 on a concrete heap: the pointers 0 and 1 are distinct and point to
structurally identical keysets. -/
theorem keysetHandle_identical_keysets_witness :
    exampleHeap.keyset (some 0) = exampleHeap.keyset (some 1) ∧
    primaryKeyId (keysetHandle (some 1) (keysetHandle (some 0) exampleHeap).2).2
        (keysetHandle (some 1) (keysetHandle (some 0) exampleHeap).2).1 = some 1 ∧
    keyEntries (keysetHandle (some 1) (keysetHandle (some 0) exampleHeap).2).2
        (keysetHandle (some 1) (keysetHandle (some 0) exampleHeap).2).1 = some [exampleKey] := by
  have h := keysetHandle_identical_keysets exampleHeap (some 0) (some 1) (by decide)
  refine ⟨by decide, ?_, ?_⟩
  · rw [← h.1, h.2.2.1]
    decide
  · rw [← h.2.1, h.2.2.2.1]
    decide

/-- C4: `keysetHandle` checks nothing about the keyset: on every heap and every keyset pointer
(so for every keyset content, well-formed or not) it returns a pointer to a handle object whose
wrapped pointer is the given one, the keyset reached through the handle is the keyset the input
pointed to, no keyset of the heap is changed, and the handle objects that existed are kept. -/
theorem keysetHandle_wraps_unchanged (m : Heap) (ks : Ptr tinkpb.Keyset) :
    (keysetHandle ks m).2.handle (keysetHandle ks m).1 = some { ks := ks } ∧
    ((keysetHandle ks m).2.handle (keysetHandle ks m).1).bind
        (fun o => (keysetHandle ks m).2.keyset o.ks) = m.keyset ks ∧
    (keysetHandle ks m).2.keysets = m.keysets ∧
    (keysetHandle ks m).2.handles.take m.handles.length = m.handles ∧
    (keysetHandle ks m).2.handles.length = m.handles.length + 1 := by
  refine ⟨keysetHandle_handle_new ks m, ?_, rfl, ?_, ?_⟩
  · rw [keysetHandle_handle_new]
    rfl
  · simp [keysetHandle]
  · simp [keysetHandle]

/-- The wrapping of C4 on the four malformed keysets (no key entries, a primary id matching no
entry, a disabled primary, a destroyed primary) and on the nil pointer: each call returns a
handle, and the keyset reached through it is the malformed keyset itself. -/
theorem keysetHandle_wraps_unchanged_witness :
    ((keysetHandle (some 0) malformedHeap).2.handle (keysetHandle (some 0) malformedHeap).1).bind
        (fun o => (keysetHandle (some 0) malformedHeap).2.keyset o.ks) =
      some { PrimaryKeyId := 0, Key := [] } ∧
    ((keysetHandle (some 1) malformedHeap).2.handle (keysetHandle (some 1) malformedHeap).1).bind
        (fun o => (keysetHandle (some 1) malformedHeap).2.keyset o.ks) =
      some { PrimaryKeyId := 7, Key := [exampleKey] } ∧
    ((keysetHandle (some 2) malformedHeap).2.handle (keysetHandle (some 2) malformedHeap).1).bind
        (fun o => (keysetHandle (some 2) malformedHeap).2.keyset o.ks) =
      some { PrimaryKeyId := 1, Key := [{ exampleKey with Status := .DISABLED }] } ∧
    ((keysetHandle (some 3) malformedHeap).2.handle (keysetHandle (some 3) malformedHeap).1).bind
        (fun o => (keysetHandle (some 3) malformedHeap).2.keyset o.ks) =
      some { PrimaryKeyId := 1, Key := [{ exampleKey with Status := .DESTROYED }] } ∧
    (keysetHandle none malformedHeap).2.handle (keysetHandle none malformedHeap).1 =
      some { ks := none } :=
  ⟨(keysetHandle_wraps_unchanged malformedHeap (some 0)).2.1,
   (keysetHandle_wraps_unchanged malformedHeap (some 1)).2.1,
   (keysetHandle_wraps_unchanged malformedHeap (some 2)).2.1,
   (keysetHandle_wraps_unchanged malformedHeap (some 3)).2.1,
   (keysetHandle_wraps_unchanged malformedHeap none).1⟩

/-- C5: while the slot `internal.KeysetHandle` is nil, the privileged operation stops fatally
on every keyset pointer and every heap: it returns no handle and no next state. -/
theorem fromRawKeyset_before_init_fatal (m : Heap) (ks : Ptr tinkpb.Keyset) :
    fromRawKeyset ks (unset m) = .error .nilFunctionCall ∧
    (∀ r : Ptr KeysetHandle × World, fromRawKeyset ks (unset m) ≠ .ok r) ∧
    step (unset m) (.invoke ks) = .error .nilFunctionCall := by
  refine ⟨rfl, ?_, rfl⟩
  intro r hr
  simp [fromRawKeyset, unset] at hr

/-- C6: in every state `w` reached from the unset state by a sequence of steps, if the slot is
set then it holds `keysetHandle`; every further sequence of steps runs to its end without a
fatal stop and ends with the slot still holding `keysetHandle`; and an invocation of the
stored function in `w` leaves the package-level variables as they were. -/
theorem bridge_slot_is_latch (m : Heap) (before after : List Step) (w : World)
    (hreach : run (unset m) before = .ok w) (hset : w.vars.KeysetHandle.isSome = true) :
    w.vars.KeysetHandle = some keysetHandle ∧
    (∃ w1, run w after = .ok w1 ∧ run (unset m) (before ++ after) = .ok w1 ∧
      w1.vars.KeysetHandle = some keysetHandle) ∧
    (∀ s : Step, ∃ w1, step w s = .ok w1 ∧ w1.vars.KeysetHandle = some keysetHandle) ∧
    (∀ ks : Ptr tinkpb.Keyset, ∃ r, fromRawKeyset ks w = .ok r ∧ r.2.vars = w.vars) := by
  have hw : w.vars.KeysetHandle = some keysetHandle := by
    rcases run_slot before (unset m) w hreach (Or.inl rfl) with hn | hs
    · rw [hn] at hset
      cases hset
    · exact hs
  refine ⟨hw, ?_, fun s => step_of_set w s hw, ?_⟩
  · obtain ⟨w1, hr, h1⟩ := run_of_set after w hw
    exact ⟨w1, hr, (run_append before after (unset m) w hreach).trans hr, h1⟩
  · intro ks
    exact ⟨_, fromRawKeyset_of_set ks w hw, rfl⟩

/-- The latch of C6 on a concrete run: `init()` and one invocation first, then an invocation,
a second `init()` and an invocation on the nil pointer. -/
theorem bridge_slot_is_latch_witness :
    ∃ w1, run (unset exampleHeap)
        ([.init, .invoke (some 0)] ++ [.invoke (some 1), .init, .invoke none]) = .ok w1 ∧
      w1.vars.KeysetHandle = some keysetHandle :=
  have h := bridge_slot_is_latch exampleHeap [.init, .invoke (some 0)]
    [.invoke (some 1), .init, .invoke none]
    { vars := { KeysetHandle := some keysetHandle },
      heap := { keysets := [exampleKeyset, exampleKeyset], handles := [{ ks := some 0 }] } }
    rfl rfl
  h.2.1.imp fun _ h1 => ⟨h1.2.1, h1.2.2⟩

/-- C8: `keysetHandle` never returns the nil pointer, and the pointer it returns points to a
handle object; given the nil keyset pointer it returns a non-nil pointer to a handle object
whose wrapped keyset pointer is nil. -/
theorem keysetHandle_never_nil (m : Heap) (ks : Ptr tinkpb.Keyset) :
    (keysetHandle ks m).1 ≠ none ∧
    ((keysetHandle ks m).2.handle (keysetHandle ks m).1).isSome = true ∧
    (keysetHandle none m).1 ≠ none ∧
    (keysetHandle none m).2.handle (keysetHandle none m).1 = some { ks := none } := by
  refine ⟨by simp [keysetHandle], ?_, by simp [keysetHandle], keysetHandle_handle_new none m⟩
  rw [keysetHandle_handle_new]
  rfl

end tink
